import Mathlib

/-!
# smtpdump: capture handler and unique file allocator

A shallow embedding of `src/smtpdump.go` (functions `outputHandler` and
`randFile`).  The operating system and the Go standard library are not part of
the repository, so they enter the model as an environment `Env` (clock, process
id, path joining, mail parsing, filesystem faults) and a mutable `World`
(filesystem contents, number of clock samples taken so far, the trace of
`os.OpenFile` calls and the process log).
-/



namespace SmtpDump

/-- Raw message bytes. -/
abbrev Bytes := List UInt8

/-- Error numbers a filesystem call can report. -/
inductive Errno
  | EEXIST
  | ENOTEMPTY
  | ENOENT
  | EACCES
  | ENOSPC
  | EIO
  deriving DecidableEq, Repr

/-- Go error values that reach the handler: a system call error, or an error of
`mail.ReadMessage`. -/
inductive GoError
  | sys (e : Errno)
  | mail (msg : String)
  deriving DecidableEq, Repr

/-- One line written to the process log.  `error` is `log.Println(err)`,
`received` is the "Received mail from %q with subject %q" line and `wrote` is
the "Wrote %q" line. -/
inductive LogLine
  | error (e : GoError)
  | received (sender subject : String)
  | wrote (name : String)
  deriving DecidableEq, Repr

/-- The library predicate `os.IsExist` on an error value (`none` is `nil`). -/
def isExist : Option Errno → Bool
  | some .EEXIST => true
  | some .ENOTEMPTY => true
  | _ => false

/-- Two's-complement reduction of an exact integer to a signed integer of
`bits` bits. -/
def wrapSigned (bits : Nat) (x : Int) : Int :=
  (x + 2 ^ (bits - 1)) % 2 ^ bits - 2 ^ (bits - 1)

/-- The expression
`int(time.Now().UnixNano()+int64(os.Getpid()))*1664525 + 1013904223`
of `randFile`, evaluated operation by operation: an `int64` addition, the
conversion to `int` (of `intBits` bits), an `int` multiplication and an `int`
addition, each with wraparound. -/
def disambiguator (intBits : Nat) (nanos pid : Int) : Int :=
  let sum64 := wrapSigned 64 (nanos + pid)
  let asInt := wrapSigned intBits sum64
  let prod := wrapSigned intBits (asInt * 1664525)
  wrapSigned intBits (prod + 1013904223)

/-- The filesystem namespace: the contents of every existing path. -/
abbrev FS := String → Option Bytes

/-- What the program reads from outside itself.
* `intBits`: width of the platform type `int` (32 or 64).
* `pid`: result of `os.Getpid()`.
* `tempDir`: result of `os.TempDir()`.
* `join`: the library function `filepath.Join` on two elements.
* `now`: the value of `time.Now().UnixNano()` at the n-th clock sample.
* `createFault`: an error that `os.OpenFile` reports before it looks at the
  candidate name itself (missing directory, permission denied, ...), given the
  number of `os.OpenFile` calls made so far and the name.
* `writeFault`: a failure of the write behind `io.Copy`: the number of bytes
  that still reach the file, and the error.
* `readMessage`: the library function `mail.ReadMessage`; on success it gives
  the header lookup `msg.Header.Get`. -/
structure Env where
  intBits : Nat
  pid : Int
  tempDir : String
  join : String → String → String
  now : Nat → Int
  createFault : Nat → String → Option Errno
  writeFault : String → Bytes → Option (Nat × Errno)
  readMessage : Bytes → Except String (String → String)

/-- The mutable state: filesystem, number of clock samples taken, the names
passed to `os.OpenFile` so far (oldest first), and the log (oldest first). -/
structure World where
  fs : FS
  tick : Nat
  opens : List String
  log : List LogLine

/-- Append a line to the log. -/
def World.logLine (w : World) (l : LogLine) : World :=
  { w with log := w.log ++ [l] }

/-- The call `time.Now().UnixNano()`: read the clock and advance the sample
counter. -/
def timeNowUnixNano (env : Env) (w : World) : Int × World :=
  (env.now w.tick, { w with tick := w.tick + 1 })

/-- The call `os.OpenFile(name, os.O_RDWR|os.O_CREATE|os.O_EXCL, 0600)`.
Returns the file (identified by its name) and the error, as Go does: on an
error the file is `nil`. -/
def openFile (env : Env) (w : World) (name : String) :
    (Option String × Option Errno) × World :=
  let w1 : World := { w with opens := w.opens ++ [name] }
  match env.createFault w.opens.length name with
  | some e => ((none, some e), w1)
  | none =>
    match w.fs name with
    | some _ => ((none, some Errno.EEXIST), w1)
    | none =>
      ((some name, none),
        { w1 with fs := fun p => if p = name then some [] else w.fs p })

/-- The call `io.Copy(f, bytes.NewReader(data))` on a file just opened: the
bytes are written from offset 0. -/
def ioCopy (env : Env) (w : World) (f : String) (data : Bytes) :
    Option Errno × World :=
  let old := (w.fs f).getD []
  match env.writeFault f data with
  | some (k, e) =>
    let written := data.take k
    (some e, { w with fs := fun p =>
      if p = f then some (written ++ old.drop written.length) else w.fs p })
  | none =>
    (none, { w with fs := fun p =>
      if p = f then some (data ++ old.drop data.length) else w.fs p })

/-- The candidate file name of one attempt: `fmt.Sprintf("%s_%d.%s", ...)`
joined with the directory. -/
def candidate (env : Env) (dir pfx suffix : String) (nanos : Int) : String :=
  let r := disambiguator env.intBits nanos env.pid
  let fn := pfx ++ "_" ++ toString r ++ "." ++ suffix
  env.join dir fn

/-- The first three statements of the loop body of `randFile`, up to and
including the call of `os.OpenFile`. -/
def randFileBody (env : Env) (dir pfx suffix : String) (w : World) :
    (Option String × Option Errno) × World :=
  let (nanos, w1) := timeNowUnixNano env w
  let name := candidate env dir pfx suffix nanos
  openFile env w1 name

/-- The loop `for i := 0; i < 10000; i++` of `randFile` with `n` iterations
left; `cur` holds the variables `f` and `err`. -/
def randFileLoop (env : Env) (dir pfx suffix : String) :
    Nat → World → Option String × Option Errno →
    (Option String × Option Errno) × World
  | 0, w, cur => (cur, w)
  | n + 1, w, _ =>
    let (res, w1) := randFileBody env dir pfx suffix w
    if isExist res.2 then
      randFileLoop env dir pfx suffix n w1 res
    else if res.2 = none then
      (res, w1)
    else
      randFileLoop env dir pfx suffix n w1 res

/-- The function `randFile`. -/
def randFile (env : Env) (dir pfx suffix : String) (w : World) :
    (Option String × Option Errno) × World :=
  let dir := if dir = "" then env.tempDir else dir
  randFileLoop env dir pfx suffix 10000 w (none, none)

/-- The part of the handler after the verbose block (lines 112 to 127).  The
code tests `err` only; the branch for a `nil` file with a `nil` error is never
taken, since `randFile` returns an error exactly when it returns no file. -/
def outputHandlerStore (env : Env) (output ext : String) (verbose : Bool)
    (data : Bytes) (w : World) : World :=
  let (nanos, w1) := timeNowUnixNano env w
  let ((f, err), w2) := randFile env output (toString nanos) ext w1
  match err with
  | some e => w2.logLine (LogLine.error (GoError.sys e))
  | none =>
    match f with
    | none => w2
    | some name =>
      let (err, w3) := ioCopy env w2 name data
      let w4 :=
        match err with
        | some e => w3.logLine (LogLine.error (GoError.sys e))
        | none => w3
      if verbose then w4.logLine (LogLine.wrote name) else w4

/-- The handler returned by `outputHandler(output, ext, verbose)`, applied to
the envelope sender and the data (the origin and the recipients are not
used by the code). -/
def outputHandler (env : Env) (output ext : String) (verbose : Bool)
    (sender : String) (data : Bytes) (w : World) : World :=
  if verbose then
    match env.readMessage data with
    | Except.error e => w.logLine (LogLine.error (GoError.mail e))
    | Except.ok header =>
      outputHandlerStore env output ext verbose data
        (w.logLine (LogLine.received sender (header "Subject")))
  else
    outputHandlerStore env output ext verbose data w


/-- The names of the first `m` attempts of a call of `randFile` that starts in
world `w` (the directory already defaulted). -/
def tried (env : Env) (dir pfx suffix : String) (w : World) (m : Nat) :
    List String :=
  (List.range m).map
    (fun j => candidate env dir pfx suffix (env.now (w.tick + j)))

/-- The world after a failed `os.OpenFile` on `name` right after a clock
sample. -/
def afterFail (w : World) (name : String) : World :=
  { w with tick := w.tick + 1, opens := w.opens ++ [name] }

/-- The world in which attempt number `j` of a call started in `w` runs, when
the attempts before it failed. -/
def worldAt (env : Env) (dir pfx suffix : String) (w : World) (j : Nat) : World :=
  { w with tick := w.tick + j, opens := w.opens ++ tried env dir pfx suffix w j }

/-! ## Concurrent calls

Several calls of `randFile` run over one shared world.  One step of the system
is one loop iteration of one call (a clock sample followed by the exclusive
create); the schedule says which call moves next.  The clock `Env.now` is
arbitrary, so two calls may well see the same sample. -/

/-- A call of `randFile` in progress: its arguments (the directory already
defaulted), the number of loop iterations left, the variables `f` and `err`,
and whether the loop was left by `break`. -/
structure Call where
  dir : String
  pfx : String
  suffix : String
  remaining : Nat
  cur : Option String × Option Errno
  broke : Bool

/-- A call at its entry to the loop. -/
def Call.start (env : Env) (dir pfx suffix : String) : Call :=
  { dir := if dir = "" then env.tempDir else dir
    pfx := pfx
    suffix := suffix
    remaining := 10000
    cur := (none, none)
    broke := false }

/-- One loop iteration of a call; a call that has left the loop does not
move. -/
def Call.step (env : Env) (c : Call) (w : World) : Call × World :=
  if c.broke then (c, w)
  else
    match c.remaining with
    | 0 => (c, w)
    | n + 1 =>
      let (res, w1) := randFileBody env c.dir c.pfx c.suffix w
      if isExist res.2 then
        ({ c with remaining := n, cur := res }, w1)
      else if res.2 = none then
        ({ c with cur := res, broke := true }, w1)
      else
        ({ c with remaining := n, cur := res }, w1)

/-- The shared world and the calls, indexed by caller. -/
structure System where
  world : World
  calls : Nat → Call

/-- Every caller at the entry of its call. -/
def System.start (env : Env) (w : World) (args : Nat → String × String × String) :
    System :=
  { world := w
    calls := fun k => Call.start env (args k).1 (args k).2.1 (args k).2.2 }

/-- Caller `i` performs one loop iteration. -/
def System.step (env : Env) (s : System) (i : Nat) : System :=
  let r := (s.calls i).step env s.world
  { world := r.2, calls := fun k => if k = i then r.1 else s.calls k }

/-- Run a schedule: the list of callers in the order in which they move. -/
def System.run (env : Env) (s : System) (schedule : List Nat) : System :=
  schedule.foldl (System.step env) s

/-- The pair `(f, err)` that caller `i` has returned, if it has returned. -/
def System.returned (s : System) (i : Nat) : Option (Option String × Option Errno) :=
  if (s.calls i).broke || (s.calls i).remaining == 0 then some (s.calls i).cur
  else none

/-- The invariant of the concurrent system: a call that holds a file has left
the loop without an error and its file exists; and no two calls hold the same
path. -/
def System.Inv (s : System) : Prop :=
  (∀ i p, (s.calls i).cur.1 = some p →
    s.world.fs p ≠ none ∧ (s.calls i).broke = true ∧ (s.calls i).cur.2 = none) ∧
  (∀ i j p, i ≠ j → (s.calls i).cur.1 = some p → (s.calls j).cur.1 ≠ some p)

/-! ## Concrete environments used in the examples -/

/-- A world with an empty filesystem. -/
def emptyWorld : World :=
  { fs := fun _ => none, tick := 0, opens := [], log := [] }

/-- A 64-bit machine, process id 4242, a clock that gains one nanosecond per
sample, no filesystem faults, paths joined by a slash.  The parser stands in
for `mail.ReadMessage`: it fails on the empty payload (Go reports `EOF` there)
and otherwise yields a message whose subject is "Hi". -/
def exampleEnv : Env :=
  { intBits := 64
    pid := 4242
    tempDir := "/tmp"
    join := fun d f => d ++ "/" ++ f
    now := fun n => 1700000000000000000 + n
    createFault := fun _ _ => none
    writeFault := fun _ _ => none
    readMessage := fun data =>
      if data = [] then Except.error "EOF"
      else Except.ok (fun k => if k = "Subject" then "Hi" else "") }

/-- As `exampleEnv`, but the clock stands still. -/
def frozenClockEnv : Env :=
  { exampleEnv with now := fun _ => 1700000000000000000 }

/-- As `exampleEnv`, but the first two clock samples are equal. -/
def tiedClockEnv : Env :=
  { exampleEnv with now := fun n => if n < 2 then 1700000000000000000 else 1700000000000000000 + n }

/-- As `exampleEnv`, but the output directory does not exist: every create
fails with `ENOENT`. -/
def missingDirEnv : Env :=
  { exampleEnv with createFault := fun _ _ => some Errno.ENOENT }

/-- As `exampleEnv`, but the disk is full: every write fails with `ENOSPC`
before any byte is written. -/
def diskFullEnv : Env :=
  { exampleEnv with writeFault := fun _ _ => some (0, Errno.ENOSPC) }

/-- A world in which every path already exists. -/
def crowdedWorld : World :=
  { fs := fun _ => some [], tick := 0, opens := [], log := [] }

/-- A world with one file. -/
def oneFileWorld : World :=
  { fs := fun p => if p = "out/old.eml" then some [1, 2, 3] else none
    tick := 0
    opens := []
    log := [] }

/-- The bytes of "Subject: Hi\r\n\r\nBody". -/
def sampleMessage : Bytes :=
  [83, 117, 98, 106, 101, 99, 116, 58, 32, 72, 105, 13, 10, 13, 10,
    66, 111, 100, 121]

/-! ## Arithmetic of the disambiguator -/

theorem wrapSigned_congr (b : Nat) (x y : Int) (h : x % 2 ^ b = y % 2 ^ b) :
    wrapSigned b x = wrapSigned b y := by
  unfold wrapSigned
  rw [Int.add_emod, h, ← Int.add_emod]

theorem wrapSigned_emod (b : Nat) (x : Int) :
    wrapSigned b x % 2 ^ b = x % 2 ^ b := by
  unfold wrapSigned
  rw [Int.sub_emod, Int.emod_emod, ← Int.sub_emod]
  simp

theorem wrapSigned_emod_of_le (b c : Nat) (h : b ≤ c) (x : Int) :
    wrapSigned c x % 2 ^ b = x % 2 ^ b := by
  have hd : (2 : Int) ^ b ∣ 2 ^ c := pow_dvd_pow 2 h
  rw [← Int.emod_emod_of_dvd _ hd, wrapSigned_emod, Int.emod_emod_of_dvd _ hd]

theorem disambiguator_exact (b : Nat) (hb : b ≤ 64) (nanos pid : Int) :
    disambiguator b nanos pid
      = wrapSigned b ((nanos + pid) * 1664525 + 1013904223) := by
  unfold disambiguator
  apply wrapSigned_congr
  rw [Int.add_emod, wrapSigned_emod, Int.mul_emod, wrapSigned_emod,
    wrapSigned_emod_of_le b 64 hb, ← Int.mul_emod, ← Int.add_emod]

theorem wrapSigned_range (b : Nat) (hb : 0 < b) (x : Int) :
    -(2 ^ (b - 1)) ≤ wrapSigned b x ∧ wrapSigned b x < 2 ^ (b - 1) := by
  unfold wrapSigned
  have hM : (2 : Int) ^ b = 2 * 2 ^ (b - 1) := by
    obtain ⟨k, rfl⟩ : ∃ k, b = k + 1 := ⟨b - 1, by omega⟩
    simp [pow_succ, mul_comm]
  have hpos : (0 : Int) < 2 ^ b := by positivity
  have h1 := Int.emod_nonneg (x + 2 ^ (b - 1)) (ne_of_gt hpos)
  have h2 := Int.emod_lt_of_pos (x + 2 ^ (b - 1)) hpos
  constructor <;> linarith

/-! ## One attempt -/

theorem openFile_cases (env : Env) (w : World) (name : String) :
    (∃ e, openFile env w name
        = ((none, some e), { w with opens := w.opens ++ [name] })) ∨
    (w.fs name = none ∧ env.createFault w.opens.length name = none ∧
      openFile env w name
        = ((some name, none),
            { w with
              opens := w.opens ++ [name]
              fs := fun p => if p = name then some [] else w.fs p })) := by
  unfold openFile
  cases hc : env.createFault w.opens.length name with
  | some e => exact Or.inl ⟨e, rfl⟩
  | none =>
    cases hf : w.fs name with
    | some c => exact Or.inl ⟨Errno.EEXIST, rfl⟩
    | none => exact Or.inr ⟨rfl, rfl, rfl⟩

theorem randFileBody_cases (env : Env) (dir pfx suffix : String) (w : World) :
    (∃ e, randFileBody env dir pfx suffix w
        = ((none, some e),
            afterFail w (candidate env dir pfx suffix (env.now w.tick)))) ∨
    (w.fs (candidate env dir pfx suffix (env.now w.tick)) = none ∧
      randFileBody env dir pfx suffix w
        = ((some (candidate env dir pfx suffix (env.now w.tick)), none),
            { afterFail w (candidate env dir pfx suffix (env.now w.tick)) with
              fs := fun p =>
                if p = candidate env dir pfx suffix (env.now w.tick)
                then some [] else w.fs p })) := by
  rcases openFile_cases env { w with tick := w.tick + 1 }
      (candidate env dir pfx suffix (env.now w.tick)) with ⟨e, he⟩ | ⟨h1, _, h3⟩
  · exact Or.inl ⟨e, he⟩
  · exact Or.inr ⟨h1, h3⟩

theorem randFileLoop_fail (env : Env) (dir pfx suffix : String) (n : Nat)
    (w w1 : World) (cur : Option String × Option Errno) (e : Errno)
    (h : randFileBody env dir pfx suffix w = ((none, some e), w1)) :
    randFileLoop env dir pfx suffix (n + 1) w cur
      = randFileLoop env dir pfx suffix n w1 (none, some e) := by
  simp only [randFileLoop, h]
  split <;> simp

theorem randFileLoop_ok (env : Env) (dir pfx suffix : String) (n : Nat)
    (w w1 : World) (cur : Option String × Option Errno) (f : String)
    (h : randFileBody env dir pfx suffix w = ((some f, none), w1)) :
    randFileLoop env dir pfx suffix (n + 1) w cur = ((some f, none), w1) := by
  simp [randFileLoop, h, isExist]

theorem tried_succ (env : Env) (dir pfx suffix : String) (w : World) (m : Nat) :
    tried env dir pfx suffix w (m + 1)
      = candidate env dir pfx suffix (env.now w.tick)
        :: tried env dir pfx suffix
            (afterFail w (candidate env dir pfx suffix (env.now w.tick))) m := by
  simp only [tried, List.range_succ_eq_map, List.map_cons, List.map_map,
    afterFail, Nat.add_zero]
  congr 1
  apply List.map_congr_left
  intro j _
  simp only [Function.comp, Nat.succ_eq_add_one]
  congr 2
  omega


/-! ## The retry loop -/

theorem tried_length (env : Env) (dir pfx suffix : String) (w : World) (m : Nat) :
    (tried env dir pfx suffix w m).length = m := by
  simp [tried]

theorem worldAt_zero (env : Env) (dir pfx suffix : String) (w : World) :
    worldAt env dir pfx suffix w 0 = w := by
  cases w
  simp [worldAt, tried]

theorem worldAt_succ (env : Env) (dir pfx suffix : String) (w : World) (j : Nat) :
    worldAt env dir pfx suffix w (j + 1)
      = worldAt env dir pfx suffix
          (afterFail w (candidate env dir pfx suffix (env.now w.tick))) j := by
  simp only [worldAt, tried_succ]
  simp [afterFail, Nat.add_assoc, Nat.add_comm 1 j]

/-- Every attempt of the loop that fails, for whatever reason, is followed by
the next attempt: when all `n` attempts fail the loop runs `n` times and
returns the last error. -/
theorem randFileLoop_all_fail (env : Env) (dir pfx suffix : String) :
    ∀ (n : Nat) (w : World) (cur : Option String × Option Errno)
      (err : Nat → Errno),
      (∀ j, j < n →
        (randFileBody env dir pfx suffix (worldAt env dir pfx suffix w j)).1
          = (none, some (err j))) →
      randFileLoop env dir pfx suffix n w cur
        = (if n = 0 then cur else (none, some (err (n - 1))),
            worldAt env dir pfx suffix w n) := by
  intro n
  induction n with
  | zero =>
    intro w cur err _
    simp [randFileLoop, worldAt_zero]
  | succ n ih =>
    intro w cur err h
    have h0 := h 0 (Nat.succ_pos n)
    rw [worldAt_zero] at h0
    rcases randFileBody_cases env dir pfx suffix w with ⟨e, he⟩ | ⟨_, hok⟩
    · rw [he] at h0
      have hee : e = err 0 := by
        simpa using h0
      subst hee
      rw [randFileLoop_fail env dir pfx suffix n w _ cur _ he]
      rw [ih _ _ (fun j => err (j + 1))
        (fun j hj => by
          have := h (j + 1) (Nat.succ_lt_succ hj)
          rwa [worldAt_succ] at this)]
      rw [worldAt_succ]
      cases n with
      | zero => simp
      | succ k => simp
    · rw [hok] at h0
      simp at h0

theorem randFileLoop_spec (env : Env) (dir pfx suffix : String) :
    ∀ (n : Nat) (w : World) (cur : Option String × Option Errno),
      ∃ m, m ≤ n ∧ (0 < n → 0 < m) ∧
        (randFileLoop env dir pfx suffix n w cur).2.opens
          = w.opens ++ tried env dir pfx suffix w m ∧
        (randFileLoop env dir pfx suffix n w cur).2.tick = w.tick + m ∧
        (randFileLoop env dir pfx suffix n w cur).2.log = w.log ∧
        (0 < n →
          (∃ e, (randFileLoop env dir pfx suffix n w cur).1 = (none, some e) ∧
            m = n ∧ (randFileLoop env dir pfx suffix n w cur).2.fs = w.fs) ∨
          (∃ f, (randFileLoop env dir pfx suffix n w cur).1 = (some f, none) ∧
            f = candidate env dir pfx suffix (env.now (w.tick + (m - 1))) ∧
            w.fs f = none ∧
            (randFileLoop env dir pfx suffix n w cur).2.fs
              = fun p => if p = f then some [] else w.fs p)) := by
  intro n
  induction n with
  | zero =>
    intro w cur
    exact ⟨0, le_refl 0, fun h => absurd h (lt_irrefl 0), by simp [randFileLoop, tried],
      by simp [randFileLoop], by simp [randFileLoop], fun h => absurd h (lt_irrefl 0)⟩
  | succ n ih =>
    intro w cur
    rcases randFileBody_cases env dir pfx suffix w with ⟨e, he⟩ | ⟨hnone, hok⟩
    · rw [randFileLoop_fail env dir pfx suffix n w _ cur _ he]
      obtain ⟨m, hm, hpos, hopens, htick, hlog, hres⟩ :=
        ih (afterFail w (candidate env dir pfx suffix (env.now w.tick))) (none, some e)
      refine ⟨m + 1, Nat.succ_le_succ hm, fun _ => Nat.succ_pos m, ?_, ?_, ?_, ?_⟩
      · rw [hopens, tried_succ]
        simp [afterFail]
      · rw [htick]
        simp [afterFail, Nat.add_assoc, Nat.add_comm 1 m]
      · rw [hlog]
        rfl
      · intro _
        cases n with
        | zero =>
          have hm0 : m = 0 := Nat.le_zero.mp hm
          subst hm0
          exact Or.inl ⟨e, by simp [randFileLoop], rfl, by simp [randFileLoop, afterFail]⟩
        | succ k =>
          have hmpos := hpos (Nat.succ_pos k)
          rcases hres (Nat.succ_pos k) with ⟨e2, h1, h2, h3⟩ | ⟨f, h1, h2, h3, h4⟩
          · exact Or.inl ⟨e2, h1, by omega, by rw [h3]; rfl⟩
          · refine Or.inr ⟨f, h1, ?_, h3, h4⟩
            rw [h2]
            simp only [afterFail]
            congr 2
            omega
    · rw [randFileLoop_ok env dir pfx suffix n w _ cur _ hok]
      refine ⟨1, Nat.succ_le_succ (Nat.zero_le n), fun _ => Nat.one_pos, ?_, ?_, ?_, ?_⟩
      · simp [tried, afterFail, List.range_succ]
      · simp [afterFail]
      · simp [afterFail]
      · intro _
        exact Or.inr ⟨_, rfl, by simp, hnone, rfl⟩


theorem randFile_unfold (env : Env) (dir pfx suffix : String) (w : World) :
    randFile env dir pfx suffix w
      = randFileLoop env (if dir = "" then env.tempDir else dir) pfx suffix
          10000 w (none, none) := rfl

/-- When the first candidate is free and the create does not fault, `randFile`
returns it after one attempt. -/
theorem randFile_first_ok (env : Env) (dir pfx suffix : String) (w : World)
    (hc : env.createFault w.opens.length
      (candidate env (if dir = "" then env.tempDir else dir) pfx suffix
        (env.now w.tick)) = none)
    (hf : w.fs (candidate env (if dir = "" then env.tempDir else dir) pfx suffix
        (env.now w.tick)) = none) :
    (randFile env dir pfx suffix w).1
      = (some (candidate env (if dir = "" then env.tempDir else dir) pfx suffix
          (env.now w.tick)), none) := by
  rw [randFile_unfold]
  have hb : randFileBody env (if dir = "" then env.tempDir else dir) pfx suffix w
      = ((some (candidate env (if dir = "" then env.tempDir else dir) pfx suffix
            (env.now w.tick)), none),
          { afterFail w (candidate env (if dir = "" then env.tempDir else dir)
              pfx suffix (env.now w.tick)) with
            fs := fun p =>
              if p = candidate env (if dir = "" then env.tempDir else dir)
                pfx suffix (env.now w.tick)
              then some [] else w.fs p }) := by
    simp only [randFileBody, timeNowUnixNano, openFile, hc, hf, afterFail]
  rw [randFileLoop_ok env _ pfx suffix 9999 w _ (none, none) _ hb]

/-- The outcome of the attempt number `j` when every earlier attempt failed,
from the fault oracle and the filesystem at the start of the call. -/
theorem randFileBody_worldAt (env : Env) (dir pfx suffix : String) (w : World)
    (j : Nat) :
    (randFileBody env dir pfx suffix (worldAt env dir pfx suffix w j)).1
      = (match env.createFault (w.opens.length + j)
            (candidate env dir pfx suffix (env.now (w.tick + j))) with
          | some e => (none, some e)
          | none =>
            match w.fs (candidate env dir pfx suffix (env.now (w.tick + j))) with
            | some _ => (none, some Errno.EEXIST)
            | none =>
              (some (candidate env dir pfx suffix (env.now (w.tick + j))), none)) := by
  simp only [randFileBody, timeNowUnixNano, openFile, worldAt, List.length_append,
    tried_length]
  cases env.createFault (w.opens.length + j)
      (candidate env dir pfx suffix (env.now (w.tick + j))) with
  | some e => rfl
  | none =>
    cases w.fs (candidate env dir pfx suffix (env.now (w.tick + j))) with
    | some c => rfl
    | none => rfl


/-! ## The allocator `randFile` -/

/-- C8: on a 32-bit or 64-bit platform the disambiguator of an attempt is
`(currentNanos + pid) * 1664525 + 1013904223` reduced to the signed `int`
width by two's-complement wraparound, so it lies in the signed range of that
width; and the name tried in the attempt number `j` of a call is built from
the clock sample number `j` of that call and the process id alone. -/
theorem disambiguator_wraparound (env : Env) (dir pfx suffix : String) (w : World)
    (hbits : env.intBits = 32 ∨ env.intBits = 64) :
    (∀ nanos : Int,
      disambiguator env.intBits nanos env.pid
        = wrapSigned env.intBits ((nanos + env.pid) * 1664525 + 1013904223)) ∧
    (∀ nanos : Int,
      -(2 ^ (env.intBits - 1)) ≤ disambiguator env.intBits nanos env.pid ∧
      disambiguator env.intBits nanos env.pid < 2 ^ (env.intBits - 1)) ∧
    (∃ m, 0 < m ∧ m ≤ 10000 ∧
      (randFile env dir pfx suffix w).2.opens
        = w.opens ++ (List.range m).map (fun j =>
            env.join (if dir = "" then env.tempDir else dir)
              (pfx ++ "_" ++
                toString (wrapSigned env.intBits
                  ((env.now (w.tick + j) + env.pid) * 1664525 + 1013904223))
                ++ "." ++ suffix))) := by
  have hle : env.intBits ≤ 64 := by
    rcases hbits with h | h <;> omega
  have hpos : 0 < env.intBits := by
    rcases hbits with h | h <;> omega
  have hexact := fun nanos => disambiguator_exact env.intBits hle nanos env.pid
  refine ⟨hexact, ?_, ?_⟩
  · intro nanos
    rw [hexact]
    exact wrapSigned_range env.intBits hpos _
  · obtain ⟨m, hm, hmpos, hopens, _, _, _⟩ :=
      randFileLoop_spec env (if dir = "" then env.tempDir else dir) pfx suffix
        10000 w (none, none)
    refine ⟨m, hmpos (by decide), hm, ?_⟩
    rw [randFile_unfold, hopens]
    congr 1
    apply List.map_congr_left
    intro j _
    simp only [candidate, hexact]

/-- C8, at a concrete input: a 64-bit machine, with a clock sample for which
the exact value overflows and the disambiguator is negative. -/
theorem disambiguator_wraparound_witness :
    disambiguator exampleEnv.intBits 1700000000000000000 exampleEnv.pid
      = wrapSigned 64 ((1700000000000000000 + 4242) * 1664525 + 1013904223) ∧
    disambiguator exampleEnv.intBits 1700000000000000000 exampleEnv.pid < 0 :=
  ⟨(disambiguator_wraparound exampleEnv "out" "p" "eml" emptyWorld
      (Or.inr rfl)).1 1700000000000000000, by decide⟩

/-- C9: the names that `randFile` tries to create are, in order, the directory
(the temporary directory when the given one is empty) joined with
`pfx_value.suffix`, where `value` is the disambiguator of the attempt in
decimal; and a file that is returned is the last of them. -/
theorem randFile_candidate_path (env : Env) (dir pfx suffix : String) (w : World) :
    ∃ m, 0 < m ∧ m ≤ 10000 ∧
      (randFile env dir pfx suffix w).2.opens
        = w.opens ++ (List.range m).map (fun j =>
            env.join (if dir = "" then env.tempDir else dir)
              (pfx ++ "_" ++
                toString (disambiguator env.intBits (env.now (w.tick + j)) env.pid)
                ++ "." ++ suffix)) ∧
      ∀ f, (randFile env dir pfx suffix w).1.1 = some f →
        f = env.join (if dir = "" then env.tempDir else dir)
              (pfx ++ "_" ++
                toString (disambiguator env.intBits (env.now (w.tick + (m - 1)))
                  env.pid)
                ++ "." ++ suffix) := by
  obtain ⟨m, hm, hmpos, hopens, _, _, hres⟩ :=
    randFileLoop_spec env (if dir = "" then env.tempDir else dir) pfx suffix
      10000 w (none, none)
  refine ⟨m, hmpos (by decide), hm, ?_, ?_⟩
  · rw [randFile_unfold, hopens]
    rfl
  · intro f hf
    rw [randFile_unfold] at hf
    rcases hres (by decide) with ⟨e, h1, _, _⟩ | ⟨g, h1, h2, _, _⟩
    · rw [h1] at hf
      simp at hf
    · rw [h1] at hf
      have hfg : g = f := by simpa using hf
      rw [← hfg, h2]
      rfl

set_option maxRecDepth 100000 in
/-- An example for C9: with an empty directory argument the file is created
under the temporary directory. -/
theorem randFile_example_path :
    (randFile exampleEnv "" "p" "eml" emptyWorld).1
      = (some "/tmp/p_-1147418889723971895.eml", none) := by
  rw [randFile_first_ok exampleEnv "" "p" "eml" emptyWorld rfl rfl]
  decide

/-- What `randFile` does to the filesystem. -/
theorem randFile_fs_spec (env : Env) (dir pfx suffix : String) (w : World) :
    (∀ p c, w.fs p = some c → (randFile env dir pfx suffix w).2.fs p = some c) ∧
    (∀ f, (randFile env dir pfx suffix w).1.1 = some f →
      (randFile env dir pfx suffix w).1.2 = none ∧
      w.fs f = none ∧
      (randFile env dir pfx suffix w).2.fs f = some [] ∧
      ∀ p, p ≠ f → (randFile env dir pfx suffix w).2.fs p = w.fs p) ∧
    ((randFile env dir pfx suffix w).1.1 = none →
      (randFile env dir pfx suffix w).2.fs = w.fs) := by
  obtain ⟨m, _, _, _, _, _, hres⟩ :=
    randFileLoop_spec env (if dir = "" then env.tempDir else dir) pfx suffix
      10000 w (none, none)
  rw [randFile_unfold]
  rcases hres (by decide) with ⟨e, h1, _, h3⟩ | ⟨g, h1, _, h3, h4⟩
  · refine ⟨?_, ?_, ?_⟩
    · intro p c hp
      rw [h3]
      exact hp
    · intro f hf
      rw [h1] at hf
      simp at hf
    · intro _
      exact h3
  · refine ⟨?_, ?_, ?_⟩
    · intro p c hp
      rw [h4]
      by_cases hpg : p = g
      · rw [hpg, h3] at hp
        simp at hp
      · simp [hpg, hp]
    · intro f hf
      rw [h1] at hf
      have hfg : g = f := by simpa using hf
      subst hfg
      refine ⟨by rw [h1], h3, by rw [h4]; simp, ?_⟩
      intro p hp
      rw [h4]
      simp [hp]
    · intro hn
      rw [h1] at hn
      simp at hn

/-- C3: `randFile` leaves every existing path in place with its contents; a
file it returns comes without an error, did not exist before the call, is
empty, and is the only change to the filesystem; and a call that returns no
file changes nothing. -/
theorem randFile_frame (env : Env) (dir pfx suffix : String) (w : World) :
    (∀ p c, w.fs p = some c → (randFile env dir pfx suffix w).2.fs p = some c) ∧
    (∀ f, (randFile env dir pfx suffix w).1.1 = some f →
      (randFile env dir pfx suffix w).1.2 = none ∧
      w.fs f = none ∧
      (randFile env dir pfx suffix w).2.fs f = some [] ∧
      ∀ p, p ≠ f → (randFile env dir pfx suffix w).2.fs p = w.fs p) ∧
    ((randFile env dir pfx suffix w).1.1 = none →
      (randFile env dir pfx suffix w).2.fs = w.fs) :=
  randFile_fs_spec env dir pfx suffix w

/-- C3, at a concrete input: a file that exists before the call is still there
with the same bytes after it. -/
theorem randFile_frame_witness :
    (randFile exampleEnv "out" "p" "eml" oneFileWorld).2.fs "out/old.eml"
      = some [1, 2, 3] :=
  (randFile_frame exampleEnv "out" "p" "eml" oneFileWorld).1 "out/old.eml"
    [1, 2, 3] (by decide)

/-- C6: when every one of the 10000 exclusive creates fails because the
candidate name already exists, `randFile` makes exactly 10000 attempts and
returns no file and the already-exists error; the filesystem is unchanged. -/
theorem randFile_bounded_retry (env : Env) (dir pfx suffix : String) (w : World)
    (h : ∀ j, j < 10000 →
      env.createFault (w.opens.length + j)
        (candidate env (if dir = "" then env.tempDir else dir) pfx suffix
          (env.now (w.tick + j))) = none ∧
      w.fs (candidate env (if dir = "" then env.tempDir else dir) pfx suffix
          (env.now (w.tick + j))) ≠ none) :
    (randFile env dir pfx suffix w).1 = (none, some Errno.EEXIST) ∧
    (randFile env dir pfx suffix w).2.opens
      = w.opens ++ tried env (if dir = "" then env.tempDir else dir) pfx suffix w 10000 ∧
    (randFile env dir pfx suffix w).2.opens.length = w.opens.length + 10000 ∧
    (randFile env dir pfx suffix w).2.tick = w.tick + 10000 ∧
    (randFile env dir pfx suffix w).2.fs = w.fs := by
  have hall := randFileLoop_all_fail env (if dir = "" then env.tempDir else dir)
    pfx suffix 10000 w (none, none) (fun _ => Errno.EEXIST)
    (fun j hj => by
      rw [randFileBody_worldAt]
      obtain ⟨h1, h2⟩ := h j hj
      rw [h1]
      cases hfs : w.fs (candidate env (if dir = "" then env.tempDir else dir)
          pfx suffix (env.now (w.tick + j))) with
      | some c => rfl
      | none => exact absurd hfs h2)
  rw [randFile_unfold, hall]
  simp [worldAt, tried_length]

/-- C6, at a concrete input: every path is taken, so all 10000 attempts
collide. -/
theorem randFile_bounded_retry_witness :
    (randFile exampleEnv "out" "p" "eml" crowdedWorld).1 = (none, some Errno.EEXIST) ∧
    (randFile exampleEnv "out" "p" "eml" crowdedWorld).2.opens.length = 10000 := by
  have h := randFile_bounded_retry exampleEnv "out" "p" "eml" crowdedWorld
    (fun j _ => ⟨rfl, by simp [crowdedWorld]⟩)
  exact ⟨h.1, by rw [h.2.2.1]; rfl⟩

/-- C5 (the code at the failing input): the output directory is missing, so
the first create fails with `ENOENT`, which is not an already-exists error;
`randFile` does not stop there but makes all 10000 attempts before it returns
the error. -/
theorem randFile_retries_after_other_error :
    isExist (some Errno.ENOENT) = false ∧
    (randFileBody missingDirEnv "/missing" "p" "eml" emptyWorld).1
      = (none, some Errno.ENOENT) ∧
    (randFile missingDirEnv "/missing" "p" "eml" emptyWorld).1
      = (none, some Errno.ENOENT) ∧
    (randFile missingDirEnv "/missing" "p" "eml" emptyWorld).2.opens.length
      = 10000 := by
  have hall := randFileLoop_all_fail missingDirEnv "/missing" "p" "eml" 10000
    emptyWorld (none, none) (fun _ => Errno.ENOENT)
    (fun j _ => by
      rw [randFileBody_worldAt]
      rfl)
  refine ⟨rfl, rfl, ?_, ?_⟩
  · rw [randFile_unfold]
    simp only [show ("/missing" = "") = False from by decide, if_false]
    rw [hall]
    rfl
  · rw [randFile_unfold]
    simp only [show ("/missing" = "") = False from by decide, if_false]
    rw [hall]
    simp [worldAt, tried_length, emptyWorld]


/-! ## The handler -/

theorem randFile_log_tick (env : Env) (dir pfx suffix : String) (w : World) :
    (randFile env dir pfx suffix w).2.log = w.log ∧
    w.tick < (randFile env dir pfx suffix w).2.tick ∧
    w.opens.length < (randFile env dir pfx suffix w).2.opens.length := by
  obtain ⟨m, _, hmpos, hopens, htick, hlog, _⟩ :=
    randFileLoop_spec env (if dir = "" then env.tempDir else dir) pfx suffix
      10000 w (none, none)
  have hm := hmpos (by decide)
  rw [randFile_unfold, hlog, htick, hopens]
  refine ⟨rfl, by omega, ?_⟩
  simp [tried_length, hm]

/-- An error is returned exactly when no file is. -/
theorem randFile_err_iff (env : Env) (dir pfx suffix : String) (w : World) :
    (∃ e, (randFile env dir pfx suffix w).1 = (none, some e) ∧
      (randFile env dir pfx suffix w).2.fs = w.fs) ∨
    (∃ f, (randFile env dir pfx suffix w).1 = (some f, none)) := by
  obtain ⟨m, _, _, _, _, _, hres⟩ :=
    randFileLoop_spec env (if dir = "" then env.tempDir else dir) pfx suffix
      10000 w (none, none)
  rw [randFile_unfold]
  rcases hres (by decide) with ⟨e, h1, _, h3⟩ | ⟨g, h1, _, _, _⟩
  · exact Or.inl ⟨e, h1, h3⟩
  · exact Or.inr ⟨g, h1⟩

/-- The handler after the verbose block, when the allocation fails: the error
is logged and nothing else happens. -/
theorem outputHandlerStore_alloc_fail (env : Env) (output ext : String)
    (verbose : Bool) (data : Bytes) (w : World) (e : Errno)
    (hr : (randFile env output (toString (env.now w.tick)) ext
        { w with tick := w.tick + 1 }).1 = (none, some e)) :
    (outputHandlerStore env output ext verbose data w).log
      = w.log ++ [LogLine.error (GoError.sys e)] ∧
    (outputHandlerStore env output ext verbose data w).fs
      = (randFile env output (toString (env.now w.tick)) ext
          { w with tick := w.tick + 1 }).2.fs := by
  have hl := (randFile_log_tick env output (toString (env.now w.tick)) ext
    { w with tick := w.tick + 1 }).1
  have hp : randFile env output (toString (env.now w.tick)) ext
      { w with tick := w.tick + 1 }
      = ((none, some e), (randFile env output (toString (env.now w.tick)) ext
          { w with tick := w.tick + 1 }).2) := Prod.ext hr rfl
  constructor
  · simp only [outputHandlerStore, timeNowUnixNano]
    rw [hp]
    simp only [World.logLine]
    rw [hl]
  · simp only [outputHandlerStore, timeNowUnixNano]
    rw [hp]
    simp only [World.logLine]

/-- The handler after the verbose block, when a file is allocated: what the
copy leaves in the file and what is logged, for both outcomes of the copy. -/
theorem outputHandlerStore_alloc_ok (env : Env) (output ext : String)
    (verbose : Bool) (data : Bytes) (w : World) (f : String)
    (hr : (randFile env output (toString (env.now w.tick)) ext
        { w with tick := w.tick + 1 }).1 = (some f, none)) :
    w.fs f = none ∧
    (∀ p, p ≠ f → (outputHandlerStore env output ext verbose data w).fs p = w.fs p) ∧
    (env.writeFault f data = none →
      (outputHandlerStore env output ext verbose data w).fs f = some data ∧
      (outputHandlerStore env output ext verbose data w).log
        = w.log ++ (if verbose then [LogLine.wrote f] else [])) ∧
    (∀ k e, env.writeFault f data = some (k, e) →
      (outputHandlerStore env output ext verbose data w).fs f = some (data.take k) ∧
      (outputHandlerStore env output ext verbose data w).log
        = w.log ++ [LogLine.error (GoError.sys e)]
            ++ (if verbose then [LogLine.wrote f] else [])) := by
  have hl := (randFile_log_tick env output (toString (env.now w.tick)) ext
    { w with tick := w.tick + 1 }).1
  obtain ⟨_, hfr, _⟩ := randFile_fs_spec env output (toString (env.now w.tick)) ext
    { w with tick := w.tick + 1 }
  obtain ⟨_, hnone, hempty, hother⟩ := hfr f (by rw [hr])
  have hp : randFile env output (toString (env.now w.tick)) ext
      { w with tick := w.tick + 1 }
      = ((some f, none), (randFile env output (toString (env.now w.tick)) ext
          { w with tick := w.tick + 1 }).2) := Prod.ext hr rfl
  refine ⟨hnone, ?_, ?_, ?_⟩
  · intro p hpf
    simp only [outputHandlerStore, timeNowUnixNano]
    rw [hp]
    simp only [ioCopy]
    cases hw : env.writeFault f data with
    | none => cases verbose <;> simp [World.logLine, hpf, hother p hpf]
    | some ke => cases verbose <;> simp [World.logLine, hpf, hother p hpf]
  · intro hw
    simp only [outputHandlerStore, timeNowUnixNano]
    rw [hp]
    simp only [ioCopy, hw]
    cases verbose <;> simp [World.logLine, hempty, hl]
  · intro k e hw
    simp only [outputHandlerStore, timeNowUnixNano]
    rw [hp]
    simp only [ioCopy, hw]
    cases verbose <;> simp [World.logLine, hempty, hl]


/-- The loop of `randFile` never calls the mail parser. -/
theorem randFileLoop_readMessage (env : Env)
    (rm : Bytes → Except String (String → String)) (dir pfx suffix : String) :
    ∀ (n : Nat) (w : World) (cur : Option String × Option Errno),
      randFileLoop { env with readMessage := rm } dir pfx suffix n w cur
        = randFileLoop env dir pfx suffix n w cur := by
  intro n
  induction n with
  | zero => intro w cur; rfl
  | succ n ih =>
    intro w cur
    have hb : randFileBody { env with readMessage := rm } dir pfx suffix w
        = randFileBody env dir pfx suffix w := rfl
    simp only [randFileLoop, hb, ih]

theorem outputHandlerStore_readMessage (env : Env)
    (rm : Bytes → Except String (String → String)) (output ext : String)
    (verbose : Bool) (data : Bytes) (w : World) :
    outputHandlerStore { env with readMessage := rm } output ext verbose data w
      = outputHandlerStore env output ext verbose data w := by
  have hr : ∀ pfx w1, randFile { env with readMessage := rm } output pfx ext w1
      = randFile env output pfx ext w1 := by
    intro pfx w1
    rw [randFile_unfold, randFile_unfold]
    exact randFileLoop_readMessage env rm _ pfx ext 10000 w1 (none, none)
  simp only [outputHandlerStore, timeNowUnixNano, hr]
  rfl

/-- C10: with verbose logging off the handler does not consult the mail parser
(its result is the same whatever the parser would say); and whenever the
allocation returns a file and the copy does not fail, that file is new, holds
exactly the payload, no other path changes and nothing is logged. -/
theorem outputHandler_quiet (env : Env) (output ext sender : String)
    (data : Bytes) (w : World) :
    (∀ rm : Bytes → Except String (String → String),
      outputHandler { env with readMessage := rm } output ext false sender data w
        = outputHandler env output ext false sender data w) ∧
    (∀ f,
      (randFile env output (toString (env.now w.tick)) ext
        { w with tick := w.tick + 1 }).1 = (some f, none) →
      env.writeFault f data = none →
      w.fs f = none ∧
      (outputHandler env output ext false sender data w).fs f = some data ∧
      (∀ p, p ≠ f →
        (outputHandler env output ext false sender data w).fs p = w.fs p) ∧
      (outputHandler env output ext false sender data w).log = w.log) := by
  constructor
  · intro rm
    simp only [outputHandler, Bool.false_eq_true, if_false]
    exact outputHandlerStore_readMessage env rm output ext false data w
  · intro f hr hw
    obtain ⟨h1, h2, h3, _⟩ :=
      outputHandlerStore_alloc_ok env output ext false data w f hr
    obtain ⟨h4, h5⟩ := h3 hw
    simp only [outputHandler, Bool.false_eq_true, if_false]
    exact ⟨h1, h4, h2, by simpa using h5⟩

set_option maxRecDepth 100000 in
/-- C10, at a concrete input: the empty payload, which the parser would
reject, is stored in a new file and the log stays empty. -/
theorem outputHandler_quiet_witness :
    (outputHandler exampleEnv "out" "eml" false "a@example.com" [] emptyWorld).fs
        "out/1700000000000000000_-1147418889722307370.eml" = some [] ∧
    (outputHandler exampleEnv "out" "eml" false "a@example.com" [] emptyWorld).log
        = [] := by
  have h := (outputHandler_quiet exampleEnv "out" "eml" "a@example.com" []
    emptyWorld).2 "out/1700000000000000000_-1147418889722307370.eml"
    (by
      rw [randFile_first_ok exampleEnv "out" _ "eml" _ rfl rfl]
      decide)
    rfl
  exact ⟨h.2.1, h.2.2.2⟩

/-- C2 (what the code does): whenever the parser fails on the payload, the
handler in verbose mode logs the parse error and returns at once: no create is
attempted, the filesystem is unchanged, and the only new log line is the
error. -/
theorem outputHandler_parse_failure_returns (env : Env) (output ext sender : String)
    (data : Bytes) (w : World) (e : String)
    (hparse : env.readMessage data = Except.error e) :
    (outputHandler env output ext true sender data w).fs = w.fs ∧
    (outputHandler env output ext true sender data w).opens = w.opens ∧
    (outputHandler env output ext true sender data w).log
      = w.log ++ [LogLine.error (GoError.mail e)] := by
  simp [outputHandler, hparse, World.logLine]

/-- C2, at the failing input: the empty payload in verbose mode. -/
theorem outputHandler_parse_failure_returns_witness :
    (outputHandler exampleEnv "out" "eml" true "a@example.com" [] emptyWorld).opens
        = [] ∧
    (outputHandler exampleEnv "out" "eml" true "a@example.com" [] emptyWorld).log
        = [LogLine.error (GoError.mail "EOF")] :=
  have h := outputHandler_parse_failure_returns exampleEnv "out" "eml"
    "a@example.com" [] emptyWorld "EOF" rfl
  ⟨h.2.1, h.2.2⟩

/-- The handler stores the payload whenever it gets past the verbose block:
if the parse succeeds or verbose logging is off, the first candidate is free,
and neither the create nor the write fails, then the candidate is a new file
that holds exactly the payload and no other path changes. -/
theorem outputHandler_stores_payload (env : Env) (output ext : String)
    (verbose : Bool) (sender : String) (data : Bytes) (w : World)
    (hparse : verbose = true → ∃ header, env.readMessage data = Except.ok header)
    (hc : env.createFault w.opens.length
      (candidate env (if output = "" then env.tempDir else output)
        (toString (env.now w.tick)) ext (env.now (w.tick + 1))) = none)
    (hf : w.fs (candidate env (if output = "" then env.tempDir else output)
        (toString (env.now w.tick)) ext (env.now (w.tick + 1))) = none)
    (hw : env.writeFault (candidate env (if output = "" then env.tempDir else output)
        (toString (env.now w.tick)) ext (env.now (w.tick + 1))) data = none) :
    (outputHandler env output ext verbose sender data w).fs
        (candidate env (if output = "" then env.tempDir else output)
          (toString (env.now w.tick)) ext (env.now (w.tick + 1))) = some data ∧
    ∀ p, p ≠ candidate env (if output = "" then env.tempDir else output)
          (toString (env.now w.tick)) ext (env.now (w.tick + 1)) →
      (outputHandler env output ext verbose sender data w).fs p = w.fs p := by
  cases verbose with
  | false =>
    have hr := randFile_first_ok env output (toString (env.now w.tick)) ext
      { w with tick := w.tick + 1 } hc hf
    obtain ⟨_, h2, h3, _⟩ :=
      outputHandlerStore_alloc_ok env output ext false data w _ hr
    simp only [outputHandler, Bool.false_eq_true, if_false]
    exact ⟨(h3 hw).1, h2⟩
  | true =>
    obtain ⟨header, hh⟩ := hparse rfl
    have hr := randFile_first_ok env output (toString (env.now w.tick)) ext
      { w.logLine (LogLine.received sender (header "Subject")) with
        tick := w.tick + 1 } hc hf
    obtain ⟨_, h2, h3, _⟩ :=
      outputHandlerStore_alloc_ok env output ext true data
        (w.logLine (LogLine.received sender (header "Subject"))) _ hr
    simp only [outputHandler, if_true, hh]
    exact ⟨(h3 hw).1, h2⟩

/-- C1 (the code at the failing input): nothing stands in the way of the
create or the write, and the payload is empty.  With verbose logging on the
handler creates no file at all and never calls `os.OpenFile`; with verbose
logging off it creates the file with the payload as its contents. -/
theorem outputHandler_round_trip_fails_verbose :
    (∀ k name, exampleEnv.createFault k name = none) ∧
    (∀ name, exampleEnv.writeFault name [] = none) ∧
    (∀ p, emptyWorld.fs p = none) ∧
    (∀ p, (outputHandler exampleEnv "out" "eml" true "a@example.com" []
        emptyWorld).fs p = none) ∧
    (outputHandler exampleEnv "out" "eml" true "a@example.com" []
        emptyWorld).opens = [] ∧
    (outputHandler exampleEnv "out" "eml" false "a@example.com" [] emptyWorld).fs
        (candidate exampleEnv "out" "1700000000000000000" "eml"
          1700000000000000001) = some [] := by
  refine ⟨fun _ _ => rfl, fun _ => rfl, fun _ => rfl, fun p => rfl, rfl, ?_⟩
  exact (outputHandler_stores_payload exampleEnv "out" "eml" false "a@example.com"
    [] emptyWorld (fun h => by simp at h) rfl rfl rfl).1

set_option maxRecDepth 100000 in
/-- C7 (the code at the failing input): the disk is full, so the copy fails.
In verbose mode the handler logs the copy error and then still logs the
"Wrote" line for the file, which is left empty. -/
theorem outputHandler_logs_wrote_after_copy_error :
    (outputHandler diskFullEnv "out" "eml" true "a@example.com" sampleMessage
        emptyWorld).log
      = [LogLine.received "a@example.com" "Hi",
          LogLine.error (GoError.sys Errno.ENOSPC),
          LogLine.wrote "out/1700000000000000000_-1147418889722307370.eml"] ∧
    (outputHandler diskFullEnv "out" "eml" true "a@example.com" sampleMessage
        emptyWorld).fs "out/1700000000000000000_-1147418889722307370.eml"
      = some [] := by
  have hr : (randFile diskFullEnv "out"
      (toString (diskFullEnv.now
        (emptyWorld.logLine (LogLine.received "a@example.com" "Hi")).tick))
      "eml"
      { emptyWorld.logLine (LogLine.received "a@example.com" "Hi") with
        tick := (emptyWorld.logLine (LogLine.received "a@example.com" "Hi")).tick + 1 }).1
      = (some "out/1700000000000000000_-1147418889722307370.eml", none) := by
    rw [randFile_first_ok diskFullEnv "out" _ "eml" _ rfl rfl]
    decide
  have h := (outputHandlerStore_alloc_ok diskFullEnv "out" "eml" true sampleMessage
    (emptyWorld.logLine (LogLine.received "a@example.com" "Hi")) _ hr).2.2.2
    0 Errno.ENOSPC rfl
  have hh : outputHandler diskFullEnv "out" "eml" true "a@example.com" sampleMessage
      emptyWorld
      = outputHandlerStore diskFullEnv "out" "eml" true sampleMessage
          (emptyWorld.logLine (LogLine.received "a@example.com" "Hi")) := rfl
  rw [hh]
  exact ⟨h.2, h.1⟩


/-! ## Concurrent calls of `randFile` -/

theorem Call.step_cases (env : Env) (c : Call) (w : World) :
    c.step env w = (c, w) ∨
    (∃ e n, c.broke = false ∧ c.remaining = n + 1 ∧
      c.step env w
        = ({ c with remaining := n, cur := (none, some e) },
            afterFail w (candidate env c.dir c.pfx c.suffix (env.now w.tick)))) ∨
    (∃ n, c.broke = false ∧ c.remaining = n + 1 ∧
      w.fs (candidate env c.dir c.pfx c.suffix (env.now w.tick)) = none ∧
      c.step env w
        = ({ c with
              cur := (some (candidate env c.dir c.pfx c.suffix (env.now w.tick)), none)
              broke := true },
            { afterFail w (candidate env c.dir c.pfx c.suffix (env.now w.tick)) with
              fs := fun p =>
                if p = candidate env c.dir c.pfx c.suffix (env.now w.tick)
                then some [] else w.fs p })) := by
  cases hb : c.broke with
  | true => exact Or.inl (by simp [Call.step, hb])
  | false =>
    cases hr : c.remaining with
    | zero => exact Or.inl (by simp [Call.step, hb, hr])
    | succ n =>
      rcases randFileBody_cases env c.dir c.pfx c.suffix w with ⟨e, he⟩ | ⟨hnone, hok⟩
      · refine Or.inr (Or.inl ⟨e, n, rfl, rfl, ?_⟩)
        simp only [Call.step, hb, hr, he]
        cases hx : isExist (some e) <;> simp
      · refine Or.inr (Or.inr ⟨n, rfl, rfl, hnone, ?_⟩)
        simp [Call.step, hb, hr, hok, isExist]

theorem System.step_noop (env : Env) (s : System) (i : Nat)
    (h : (s.calls i).step env s.world = (s.calls i, s.world)) :
    System.step env s i = s := by
  cases s with
  | mk world calls =>
    simp only [System.step] at *
    rw [h]
    congr 1
    funext k
    by_cases hk : k = i
    · simp [hk]
    · simp [hk]

theorem System.step_inv (env : Env) (s : System) (i : Nat) (h : s.Inv) :
    (System.step env s i).Inv := by
  rcases Call.step_cases env (s.calls i) s.world with
    h0 | ⟨e, n, _, _, h1⟩ | ⟨n, _, _, hnone, h1⟩
  · rw [System.step_noop env s i h0]
    exact h
  · obtain ⟨hA, hB⟩ := h
    constructor
    · intro k p hk
      by_cases hki : k = i
      · subst hki
        simp [System.step, h1] at hk
      · simp only [System.step, h1, hki, if_false] at hk ⊢
        exact hA k p hk
    · intro k l p hkl hk hl
      by_cases hki : k = i
      · subst hki
        simp [System.step, h1] at hk
      · by_cases hli : l = i
        · subst hli
          simp [System.step, h1] at hl
        · simp only [System.step, h1, hki, hli, if_false] at hk hl
          exact hB k l p hkl hk hl
  · obtain ⟨hA, hB⟩ := h
    constructor
    · intro k p hk
      by_cases hki : k = i
      · subst hki
        simp only [System.step, h1, if_true] at hk ⊢
        have hp : candidate env (s.calls k).dir (s.calls k).pfx (s.calls k).suffix
            (env.now s.world.tick) = p := by simpa using hk
        subst hp
        simp
      · simp only [System.step, h1, hki, if_false] at hk ⊢
        obtain ⟨a1, a2, a3⟩ := hA k p hk
        refine ⟨?_, a2, a3⟩
        by_cases hpc : p = candidate env (s.calls i).dir (s.calls i).pfx
            (s.calls i).suffix (env.now s.world.tick)
        · simp [hpc]
        · simpa [hpc] using a1
    · intro k l p hkl hk hl
      by_cases hki : k = i
      · subst hki
        have hlk : ¬ l = k := fun hh => hkl hh.symm
        simp only [System.step, h1, hlk, if_true, if_false] at hk hl
        have hp : candidate env (s.calls k).dir (s.calls k).pfx (s.calls k).suffix
            (env.now s.world.tick) = p := by simpa using hk
        subst hp
        exact (hA l _ hl).1 hnone
      · by_cases hli : l = i
        · subst hli
          simp only [System.step, h1, hki, if_true, if_false] at hk hl
          have hp : candidate env (s.calls l).dir (s.calls l).pfx (s.calls l).suffix
              (env.now s.world.tick) = p := by simpa using hl
          subst hp
          exact (hA k _ hk).1 hnone
        · simp only [System.step, h1, hki, hli, if_false] at hk hl
          exact hB k l p hkl hk hl

theorem System.run_inv (env : Env) (schedule : List Nat) :
    ∀ s : System, s.Inv → (System.run env s schedule).Inv := by
  induction schedule with
  | nil => intro s h; exact h
  | cons i rest ih =>
    intro s h
    exact ih (System.step env s i) (System.step_inv env s i h)

theorem System.start_inv (env : Env) (w : World)
    (args : Nat → String × String × String) :
    (System.start env w args).Inv := by
  constructor
  · intro i p hp
    simp [System.start, Call.start] at hp
  · intro i j p _ hp
    simp [System.start, Call.start] at hp


theorem System.returned_cur (s : System) (i : Nat)
    (r : Option String × Option Errno) (h : s.returned i = some r) :
    (s.calls i).cur = r := by
  unfold System.returned at h
  split at h
  · simpa using h
  · simp at h

theorem System.run_broke (env : Env) (i : Nat) :
    ∀ (m : Nat) (s : System), (s.calls i).broke = true →
      System.run env s (List.replicate m i) = s := by
  intro m
  induction m with
  | zero => intro s _; rfl
  | succ m ih =>
    intro s hb
    have hstep : System.step env s i = s :=
      System.step_noop env s i (by simp [Call.step, hb])
    simp only [System.run, List.replicate_succ, List.foldl_cons, hstep]
    exact ih s hb

/-- A caller that is scheduled alone for as many steps as it has iterations
left computes exactly the loop of `randFile`. -/
theorem System.run_alone (env : Env) (i : Nat) :
    ∀ (n : Nat) (s : System), (s.calls i).broke = false →
      (s.calls i).remaining = n →
      ((System.run env s (List.replicate n i)).calls i).cur
        = (randFileLoop env (s.calls i).dir (s.calls i).pfx (s.calls i).suffix n
            s.world (s.calls i).cur).1 ∧
      (System.run env s (List.replicate n i)).world
        = (randFileLoop env (s.calls i).dir (s.calls i).pfx (s.calls i).suffix n
            s.world (s.calls i).cur).2 := by
  intro n
  induction n with
  | zero =>
    intro s _ _
    exact ⟨rfl, rfl⟩
  | succ n ih =>
    intro s hb hr
    have hrun : System.run env s (List.replicate (n + 1) i)
        = System.run env (System.step env s i) (List.replicate n i) := by
      simp [System.run, List.replicate_succ]
    rw [hrun]
    rcases randFileBody_cases env (s.calls i).dir (s.calls i).pfx (s.calls i).suffix
        s.world with ⟨e, he⟩ | ⟨_, hok⟩
    · have hstep : (s.calls i).step env s.world
          = ({ s.calls i with remaining := n, cur := (none, some e) },
              afterFail s.world (candidate env (s.calls i).dir (s.calls i).pfx
                (s.calls i).suffix (env.now s.world.tick))) := by
        simp only [Call.step, hb, hr, he]
        cases hx : isExist (some e) <;> simp
      have h1 := ih (System.step env s i)
        (by simp [System.step, hstep, hb]) (by simp [System.step, hstep])
      rw [randFileLoop_fail env _ _ _ n s.world _ _ e he]
      simpa [System.step, hstep] using h1
    · have hstep : (s.calls i).step env s.world
          = ({ s.calls i with
                cur := (some (candidate env (s.calls i).dir (s.calls i).pfx
                  (s.calls i).suffix (env.now s.world.tick)), none)
                broke := true },
              { afterFail s.world (candidate env (s.calls i).dir (s.calls i).pfx
                  (s.calls i).suffix (env.now s.world.tick)) with
                fs := fun p =>
                  if p = candidate env (s.calls i).dir (s.calls i).pfx
                    (s.calls i).suffix (env.now s.world.tick)
                  then some [] else s.world.fs p }) := by
        simp [Call.step, hb, hr, hok, isExist]
      rw [System.run_broke env i n (System.step env s i)
        (by simp [System.step, hstep])]
      rw [randFileLoop_ok env _ _ _ n s.world _ _ _ hok]
      simp [System.step, hstep]

/-- C4: over one shared filesystem, along every schedule of the loop
iterations of any number of concurrent calls of `randFile` (also when calls
read equal clock samples), two different callers that have returned a file
hold different paths, and both files exist.  The model of a caller agrees
with `randFile`: scheduled alone from the start, a caller ends with the
result and the world of `randFile`. -/
theorem randFile_concurrent_distinct (env : Env) (w : World)
    (args : Nat → String × String × String) (schedule : List Nat)
    (i j : Nat) (p q : String) (hij : i ≠ j)
    (hi : (System.run env (System.start env w args) schedule).returned i
      = some (some p, none))
    (hj : (System.run env (System.start env w args) schedule).returned j
      = some (some q, none)) :
    p ≠ q ∧
    (System.run env (System.start env w args) schedule).world.fs p ≠ none ∧
    (System.run env (System.start env w args) schedule).world.fs q ≠ none ∧
    (((System.run env (System.start env w args) (List.replicate 10000 i)).calls i).cur
        = (randFile env (args i).1 (args i).2.1 (args i).2.2 w).1 ∧
      (System.run env (System.start env w args) (List.replicate 10000 i)).world
        = (randFile env (args i).1 (args i).2.1 (args i).2.2 w).2) := by
  obtain ⟨hA, hB⟩ := System.run_inv env schedule _ (System.start_inv env w args)
  have ci := System.returned_cur _ i _ hi
  have cj := System.returned_cur _ j _ hj
  have ci1 : ((System.run env (System.start env w args) schedule).calls i).cur.1
      = some p := by rw [ci]
  have cj1 : ((System.run env (System.start env w args) schedule).calls j).cur.1
      = some q := by rw [cj]
  refine ⟨?_, (hA i p ci1).1, (hA j q cj1).1, ?_⟩
  · intro hpq
    subst hpq
    exact hB i j p hij ci1 cj1
  · exact System.run_alone env i 10000 (System.start env w args) rfl rfl

set_option maxRecDepth 100000 in
/-- C4, at a concrete input: two callers with the same arguments read the
same clock sample.  Caller 0 creates the file; caller 1 collides, retries with
a fresh sample and gets a different path. -/
theorem randFile_concurrent_distinct_witness :
    (System.run tiedClockEnv
        (System.start tiedClockEnv emptyWorld (fun _ => ("out", "p", "eml")))
        [0, 1, 1]).returned 0
      = some (some "out/p_-1147418889723971895.eml", none) ∧
    (System.run tiedClockEnv
        (System.start tiedClockEnv emptyWorld (fun _ => ("out", "p", "eml")))
        [0, 1, 1]).returned 1
      = some (some "out/p_-1147418889720642845.eml", none) ∧
    "out/p_-1147418889723971895.eml" ≠ "out/p_-1147418889720642845.eml" :=
  ⟨by decide, by decide,
    (randFile_concurrent_distinct tiedClockEnv emptyWorld
      (fun _ => ("out", "p", "eml")) [0, 1, 1] 0 1 _ _ (by decide)
      (by decide) (by decide)).1⟩

end SmtpDump
